import Mathlib

/-!
Verification of the ret2spec demos (src/demos/ret2spec_sa.cc and
src/demos/ret2spec_recursion_ca.cc) against their natural-language
specification.

The embedding models the architectural (non-speculative) semantics of the
demos.  Machine addresses are abstracted as natural numbers: each
`ReturnsTrue` frame's local `stack_mark` address is supplied by a function
`markAt : Nat → Nat` indexed by the frame's `counter` argument, and the
sentinel mark pushed by `LeakByte` is a separate parameter.  Observable
side effects (cache flushes, forced reads, the dead-code print, tracker
pushes and pops, oracle flushes and decision queries) are recorded in an
event trace.  Mutable globals (`current_offset`, `false_value`,
`oracle_ptr`, `stack_mark_pointers`) are threaded explicitly as a state
record.  Calls to `exit(EXIT_FAILURE)` and undefined behaviour
(`pop_back`/`back` on an empty vector) are distinguished result forms.
-/

namespace Ret2Spec

/-- `kRecursionDepth` from the source (both variants): 64. -/
def kRecursionDepth : Nat := 64

/-- `kCacheLineSize` from ret2spec_recursion_ca.cc: 64. -/
def kCacheLineSize : Nat := 64

/-- The literal convergence ceiling appearing in `LeakByte` (`run > 100000`). -/
def convergenceCeiling : Nat := 100000

/-- Observable events of one demo process.  Addresses are abstract `Nat`s. -/
inductive Event where
  /-- `sidechannel.FlushOracle()` at the top of a `LeakByte` iteration. -/
  | flushOracle
  /-- `ForceRead(oracle.data() + byteValue)` in the dead branch. -/
  | forceRead (byteValue : Nat)
  /-- The `"Dead code. Must not be printed."` output in the dead branch. -/
  | printDead
  /-- `FlushFromDataCache(&stack_mark, stack_mark_pointers.back())`. -/
  | flushRange (own parent : Nat)
  /-- `stack_mark_pointers.push_back(&stack_mark)`. -/
  | pushMark (m : Nat)
  /-- `stack_mark_pointers.pop_back()`. -/
  | popMark
  /-- `sidechannel.AddHitAndRecomputeScores()`. -/
  | queryDecision
  deriving DecidableEq, Repr

/-- The mutable globals of the demo translation units.  The vector
`stack_mark_pointers` is kept most-recent-first: `push_back` is cons,
`back()` is the head, `pop_back` drops the head. -/
structure Globals where
  current_offset : Nat
  false_value : Bool
  oracle_ptr : Nat
  stack_mark_pointers : List Nat
  deriving DecidableEq, Repr

/-- The globals as initialized at program start: zeroed scalars,
`false_value = false`, empty mark vector. -/
def initGlobals : Globals :=
  { current_offset := 0, false_value := false, oracle_ptr := 0,
    stack_mark_pointers := [] }

/-- Result of running one of the recursive procedures. -/
inductive Res where
  /-- Undefined behaviour: `pop_back` or `back` on an empty vector. -/
  | crash
  /-- The process terminated via `exit(EXIT_FAILURE)` in the dead branch. -/
  | exited (events : List Event)
  /-- Normal return with value, final globals, and emitted events. -/
  | ret (value : Bool) (g : Globals) (events : List Event)
  deriving DecidableEq, Repr

/-- `ReturnsFalse` (ret2spec_sa.cc lines 54-66): if `counter > 0`, recurse;
if the recursive call returned `true`, perform the dead-branch effects
(forced oracle read at `private_data[current_offset]`, the dead-code print,
then `exit(EXIT_FAILURE)`); finally return the global `false_value`.
`priv` is the byte sequence of `private_data`. -/
def ReturnsFalse (priv : Nat → Nat) : Nat → Globals → Res
  | 0, g => .ret g.false_value g []
  | c + 1, g =>
    match ReturnsFalse priv c g with
    | .crash => .crash
    | .exited evs => .exited evs
    | .ret b g1 evs =>
      if b then
        .exited (evs ++ [.forceRead (priv g1.current_offset), .printDead])
      else
        .ret g1.false_value g1 evs

/-- The unwind epilogue of `ReturnsTrue` (ret2spec_sa.cc lines 82-87):
after the step in the body returns, pop the frame's own mark, then flush
the range from the own mark to the new top (`back()`), and return `true`.
`m` is the frame's own mark; the push event for `m` is prepended here. -/
def trueEpilogue (m : Nat) : Res → Res
  | .crash => .crash
  | .exited evs => .exited (.pushMark m :: evs)
  | .ret _ g2 evs =>
    match g2.stack_mark_pointers with
    | [] => .crash
    | _ :: rest =>
      match rest with
      | [] => .crash
      | parent :: _ =>
        .ret true { g2 with stack_mark_pointers := rest }
          (.pushMark m :: (evs ++ [.popMark, .flushRange m parent]))

/-- `ReturnsTrue` (ret2spec_sa.cc lines 69-88): push the frame's own stack
mark, recurse if `counter > 0`, otherwise start the `ReturnsFalse`
recursion at `kRecursionDepth`; then pop the mark, flush the frame range
and return `true`.  `markAt c` is the address of the local `stack_mark`
of the frame whose `counter` argument is `c`. -/
def ReturnsTrue (priv markAt : Nat → Nat) : Nat → Globals → Res
  | 0, g =>
    trueEpilogue (markAt 0)
      (ReturnsFalse priv kRecursionDepth
        { g with stack_mark_pointers := markAt 0 :: g.stack_mark_pointers })
  | c + 1, g =>
    trueEpilogue (markAt (c + 1))
      (ReturnsTrue priv markAt c
        { g with stack_mark_pointers := markAt (c + 1) :: g.stack_mark_pointers })

/-- The event trace of a successful `ReturnsTrue counter` run whose caller's
top mark (the parent mark seen after the pop) is `parent`. -/
def trueEvents (markAt : Nat → Nat) (parent : Nat) : Nat → List Event
  | 0 => [.pushMark (markAt 0), .popMark, .flushRange (markAt 0) parent]
  | c + 1 =>
    .pushMark (markAt (c + 1)) ::
      (trueEvents markAt (markAt (c + 1)) c ++
        [.popMark, .flushRange (markAt (c + 1)) parent])

/-- Boolean recognizer for tracker push events. -/
def isPushEvent : Event → Bool
  | .pushMark _ => true
  | _ => false

/-- Boolean recognizer for the oracle-flush event. -/
def isFlushOracleEvent : Event → Bool
  | .flushOracle => true
  | _ => false

/-- Boolean recognizer for the decision-query event. -/
def isQueryEvent : Event → Bool
  | .queryDecision => true
  | _ => false

/-- Result of `LeakByte`. -/
inductive LeakRes where
  /-- Undefined behaviour propagated from the pollution run. -/
  | crash
  /-- The process terminated through the dead-code `exit(EXIT_FAILURE)`. -/
  | exitedDead (events : List Event)
  /-- The `run > 100000` guard fired: `"Does not converge "` plus the last
  undecided guess is printed to stderr and the process exits with failure.
  `failRun` is the value of the `run` counter at that moment. -/
  | convergenceFailure (guess : Char) (failRun : Nat) (events : List Event)
  /-- A decided trial: `LeakByte` returns `value`.  `decidedRun` is the value
  of the `run` counter on the deciding iteration. -/
  | ret (value : Char) (decidedRun : Nat) (g : Globals) (events : List Event)
  deriving DecidableEq, Repr

/-- The `for (int run = 0;; ++run)` loop of `LeakByte` (ret2spec_sa.cc lines
95-114).  Each iteration flushes the oracle, pushes the sentinel mark `sm`,
performs the pollution run (`LeakByte` passes
`ReturnsTrue priv markAt kRecursionDepth`), pops the sentinel, and queries
`AddHitAndRecomputeScores` (modelled by `decider run`); a decided result is
returned, otherwise the loop re-runs until the `run > 100000` guard exits
the process.  The loop terminates because `run` grows by one per
iteration. -/
def LeakByteLoop (sm : Nat) (pollutionRun : Globals → Res)
    (decider : Nat → Bool × Char) (g : Globals) (run : Nat) : LeakRes :=
  match pollutionRun
      { g with stack_mark_pointers := sm :: g.stack_mark_pointers } with
  | .crash => .crash
  | .exited evs => .exitedDead (.flushOracle :: .pushMark sm :: evs)
  | .ret _ g2 evs =>
    match g2.stack_mark_pointers with
    | [] => .crash
    | _ :: rest =>
      let g3 : Globals := { g2 with stack_mark_pointers := rest }
      let result := decider run
      let iterEvs : List Event :=
        .flushOracle :: .pushMark sm :: (evs ++ [.popMark, .queryDecision])
      if result.1 then .ret result.2 run g3 iterEvs
      else if _h : run > 100000 then .convergenceFailure result.2 run iterEvs
      else
        match LeakByteLoop sm pollutionRun decider g3 (run + 1) with
        | .crash => .crash
        | .exitedDead evs1 => .exitedDead (iterEvs ++ evs1)
        | .convergenceFailure gc r evs1 =>
          .convergenceFailure gc r (iterEvs ++ evs1)
        | .ret v r g4 evs1 => .ret v r g4 (iterEvs ++ evs1)
termination_by 100001 - run
decreasing_by omega

/-- `LeakByte` (ret2spec_sa.cc lines 90-115): store the oracle reference in
the global `oracle_ptr`, then enter the retry loop with `run = 0`; the
pollution run of each iteration is `ReturnsTrue(kRecursionDepth)` (line
102). -/
def LeakByte (priv markAt : Nat → Nat) (sm oracleAddr : Nat)
    (decider : Nat → Bool × Char) (g : Globals) : LeakRes :=
  LeakByteLoop sm (ReturnsTrue priv markAt kRecursionDepth) decider
    { g with oracle_ptr := oracleAddr } 0

/-- Result of the leak-driving loop in `main` (ret2spec_sa.cc lines
120-124): final stdout bytes, plus how the process ended. -/
inductive MainRes where
  /-- Undefined behaviour propagated from a `LeakByte` call. -/
  | crash
  /-- Termination through the dead-code `exit(EXIT_FAILURE)`. -/
  | exitedDead (out : List Char)
  /-- A convergence failure: bytes printed so far, the stderr line, and the
  offset whose `LeakByte` call was active when the process exited. -/
  | convFail (out : List Char) (stderrLine : String) (failOffset : Nat)
  /-- All offsets decided; `out` is the full decoded string. -/
  | ok (out : List Char)
  deriving DecidableEq, Repr

/-- The `for (size_t i = 0; i < strlen(private_data); ++i)` loop of `main`
(ret2spec_sa.cc lines 120-124) over the remaining offsets: set
`current_offset`, call `LeakByte`, append the returned byte to stdout.  A
convergence failure prints `"Does not converge "` followed by the last
undecided guess to stderr and exits, so the remaining offsets produce no
output.  `collab i` models `AddHitAndRecomputeScores` during the offset-`i`
call. -/
def LeakLoopMain (priv markAt : Nat → Nat) (sm oracleAddr : Nat)
    (collab : Nat → Nat → Bool × Char) :
    List Nat → Globals → List Char → MainRes
  | [], _g, out => .ok out
  | i :: offs, g, out =>
    match LeakByte priv markAt sm oracleAddr (collab i)
        { g with current_offset := i } with
    | .crash => .crash
    | .exitedDead _ => .exitedDead out
    | .convergenceFailure guess _ _ =>
      .convFail out ("Does not converge " ++ String.mk [guess]) i
    | .ret c _ g1 _ =>
      LeakLoopMain priv markAt sm oracleAddr collab offs g1 (out ++ [c])

/-- The whole leak run of `main`: offsets `0 .. len - 1` (with
`len = strlen(private_data)`) starting from globals `g` and empty
stdout. -/
def MainRun (priv markAt : Nat → Nat) (sm oracleAddr : Nat)
    (collab : Nat → Nat → Bool × Char) (len : Nat) (g : Globals) : MainRes :=
  LeakLoopMain priv markAt sm oracleAddr collab (List.range len) g []

/-- Epilogue of the tracker-only replay of one `ReturnsTrue` frame: given
the pushed tracker `t1` and the snapshot list and tracker produced by the
frame's body, record the post-push snapshot `(t1, live + 1)` and the
post-pop snapshot `(rest, live)`; `none` when `pop_back` or `back` would
hit an empty vector.  `live` is the number of marks already pushed by the
sentinel and the enclosing frames. -/
def markTraceEpilogue (t1 : List Nat) (live : Nat) :
    Option (List (List Nat × Nat) × List Nat) →
      Option (List (List Nat × Nat) × List Nat)
  | none => none
  | some (snaps, t2) =>
    match t2 with
    | [] => none
    | _ :: rest =>
      match rest with
      | [] => none
      | _ :: _ => some ((t1, live + 1) :: (snaps ++ [(rest, live)]), rest)

/-- Tracker-only replay of `ReturnsTrue counter` started with tracker `t`
and `live` already-pushed marks: the sequence of
(tracker contents, number of currently pushed marks) snapshots recorded
after every `push_back` and `pop_back`, together with the final tracker.
The `ReturnsFalse` recursion in the base case never touches the tracker. -/
def ReturnsTrueMarkTrace (markAt : Nat → Nat) :
    Nat → List Nat → Nat → Option (List (List Nat × Nat) × List Nat)
  | 0, t, live =>
    markTraceEpilogue (markAt 0 :: t) live (some ([], markAt 0 :: t))
  | c + 1, t, live =>
    markTraceEpilogue (markAt (c + 1) :: t) live
      (ReturnsTrueMarkTrace markAt c (markAt (c + 1) :: t) (live + 1))

/-- Tracker snapshots of one whole pollution run of `LeakByte`
(ret2spec_sa.cc lines 100-103): starting from the empty tracker, push the
sentinel mark `sm`, run `ReturnsTrue kRecursionDepth`, pop the sentinel.
The result is `some` exactly when no `pop_back` or `back` ever hits an
empty vector during the run. -/
def pollutionRunMarkTrace (markAt : Nat → Nat) (sm : Nat) :
    Option (List (List Nat × Nat)) :=
  match ReturnsTrueMarkTrace markAt kRecursionDepth [sm] 1 with
  | none => none
  | some (snaps, t2) =>
    match t2 with
    | [] => none
    | _ :: rest => some (([sm], 1) :: (snaps ++ [(rest, 0)]))

/-- Byte offsets visited by the eviction loop of `ReturnsTrue` in
ret2spec_recursion_ca.cc (lines 103-106):
`for (int i = 0; i < diff; i += step) CLFlush(&stack_mark + i)`, where
`diff` is the pointer distance from the own mark to the parent mark
(0 when the parent does not lie above).  `fuel` bounds the iteration
count; `diff` iterations always suffice when `step ≥ 1`. -/
def evictLoopOffsets (diff step : Nat) : Nat → Nat → List Nat
  | i, fuel =>
    match fuel with
    | 0 => []
    | fuel1 + 1 =>
      if i < diff then i :: evictLoopOffsets diff step (i + step) fuel1
      else []

/-- The frame-eviction step performed on unwind (ret2spec_recursion_ca.cc
lines 102-107): flush from the own mark in `step`-sized strides while
strictly below the parent mark, then flush the parent mark itself.
Returns the flushed addresses in order. -/
def evict (ownMark parentMark step : Nat) : List Nat :=
  (evictLoopOffsets (parentMark - ownMark) step 0 (parentMark - ownMark)).map
    (fun i => ownMark + i) ++ [parentMark]

/-- Observable cache effect of flushing a list of addresses: each flushed
line is removed from the set of cached lines. -/
def flushAll (cache : Finset Nat) (addrs : List Nat) : Finset Nat :=
  addrs.foldl Finset.erase cache

/-- Cache state after performing the unwind eviction on `cache`. -/
def evictCache (cache : Finset Nat) (ownMark parentMark step : Nat) : Finset Nat :=
  flushAll cache (evict ownMark parentMark step)

theorem ReturnsFalse_run (priv : Nat → Nat) :
    ∀ (c : Nat) (co : Nat) (op : Nat) (smp : List Nat),
      ReturnsFalse priv c ⟨co, false, op, smp⟩ = .ret false ⟨co, false, op, smp⟩ [] := by
  intro c co op smp
  induction c with
  | zero => rfl
  | succ c ih =>
    rw [ReturnsFalse, ih]
    rfl

theorem ReturnsTrue_run (priv markAt : Nat → Nat) :
    ∀ (c : Nat) (co : Nat) (op : Nat) (p : Nat) (rest : List Nat),
      ReturnsTrue priv markAt c ⟨co, false, op, p :: rest⟩ =
        .ret true ⟨co, false, op, p :: rest⟩ (trueEvents markAt p c) := by
  intro c
  induction c with
  | zero =>
    intro co op p rest
    show trueEpilogue (markAt 0)
        (ReturnsFalse priv kRecursionDepth ⟨co, false, op, markAt 0 :: p :: rest⟩) =
      Res.ret true ⟨co, false, op, p :: rest⟩ (trueEvents markAt p 0)
    rw [ReturnsFalse_run]
    rfl
  | succ c ih =>
    intro co op p rest
    show trueEpilogue (markAt (c + 1))
        (ReturnsTrue priv markAt c ⟨co, false, op, markAt (c + 1) :: p :: rest⟩) =
      Res.ret true ⟨co, false, op, p :: rest⟩ (trueEvents markAt p (c + 1))
    rw [ih]
    rfl

theorem Globals.eta (g : Globals) :
    Globals.mk g.current_offset g.false_value g.oracle_ptr g.stack_mark_pointers = g := rfl

theorem ReturnsTrue_run_of (priv markAt : Nat → Nat) (c : Nat) (g : Globals)
    (p : Nat) (rest : List Nat) (hfv : g.false_value = false)
    (hsmp : g.stack_mark_pointers = p :: rest) :
    ReturnsTrue priv markAt c g = .ret true g (trueEvents markAt p c) := by
  obtain ⟨co, fv, op, smp⟩ := g
  cases hfv
  cases hsmp
  exact ReturnsTrue_run priv markAt c co op p rest

theorem LeakByteLoop_conv (priv markAt : Nat → Nat) (sm : Nat)
    (decider : Nat → Bool × Char) (hnd : ∀ n, (decider n).1 = false) :
    ∀ (d run : Nat) (g : Globals), g.false_value = false → run + d = 100001 →
      ∃ evs, LeakByteLoop sm (ReturnsTrue priv markAt kRecursionDepth) decider g run =
        .convergenceFailure (decider 100001).2 100001 evs := by
  intro d
  induction d with
  | zero =>
    intro run g hfv hrun
    have hrun1 : run = 100001 := by omega
    subst hrun1
    refine ⟨Event.flushOracle :: Event.pushMark sm ::
      (trueEvents markAt sm kRecursionDepth ++ [Event.popMark, Event.queryDecision]), ?_⟩
    rw [LeakByteLoop]
    rw [ReturnsTrue_run_of priv markAt kRecursionDepth
      { g with stack_mark_pointers := sm :: g.stack_mark_pointers } sm
      g.stack_mark_pointers hfv rfl]
    dsimp only
    rw [hnd 100001, if_neg (by decide), dif_pos (by omega)]
  | succ d ih =>
    intro run g hfv hrun
    rw [LeakByteLoop]
    rw [ReturnsTrue_run_of priv markAt kRecursionDepth
      { g with stack_mark_pointers := sm :: g.stack_mark_pointers } sm
      g.stack_mark_pointers hfv rfl]
    dsimp only
    rw [hnd run, if_neg (by decide), dif_neg (by omega), Globals.eta]
    obtain ⟨evs1, h1⟩ := ih (run + 1) g hfv (by omega)
    rw [h1]
    exact ⟨_, rfl⟩

theorem LeakByteLoop_first_trial (priv markAt : Nat → Nat) (sm : Nat)
    (decider : Nat → Bool × Char) (g : Globals) (hfv : g.false_value = false)
    (hd : (decider 0).1 = true) :
    LeakByteLoop sm (ReturnsTrue priv markAt kRecursionDepth) decider g 0 =
      .ret (decider 0).2 0 g
        (.flushOracle :: .pushMark sm ::
          (trueEvents markAt sm kRecursionDepth ++ [.popMark, .queryDecision])) := by
  rw [LeakByteLoop]
  rw [ReturnsTrue_run_of priv markAt kRecursionDepth
      { g with stack_mark_pointers := sm :: g.stack_mark_pointers } sm
      g.stack_mark_pointers hfv rfl]
  dsimp only
  rw [hd, if_pos rfl, Globals.eta]

theorem trueEvents_countP_push (markAt : Nat → Nat) :
    ∀ (c : Nat) (parent : Nat),
      (trueEvents markAt parent c).countP (fun e => isPushEvent e) = c + 1 := by
  intro c
  induction c with
  | zero => intro parent; rfl
  | succ c ih =>
    intro parent
    rw [trueEvents, List.countP_cons, List.countP_append, ih]
    rfl

theorem trueEvents_countP_flushOracle (markAt : Nat → Nat) :
    ∀ (c : Nat) (parent : Nat),
      (trueEvents markAt parent c).countP (fun e => isFlushOracleEvent e) = 0 := by
  intro c
  induction c with
  | zero => intro parent; rfl
  | succ c ih =>
    intro parent
    rw [trueEvents, List.countP_cons, List.countP_append, ih]
    rfl

theorem trueEvents_countP_query (markAt : Nat → Nat) :
    ∀ (c : Nat) (parent : Nat),
      (trueEvents markAt parent c).countP (fun e => isQueryEvent e) = 0 := by
  intro c
  induction c with
  | zero => intro parent; rfl
  | succ c ih =>
    intro parent
    rw [trueEvents, List.countP_cons, List.countP_append, ih]
    rfl

/-- C1: for every offset (any globals with the program's `false_value`),
if the collaborator (`AddHitAndRecomputeScores`, modelled by `decider`)
never decides, then `LeakByte` fails fatally with the convergence error
exactly when the trial counter `run` reaches `convergenceCeiling + 1`
(= 100001), never at an earlier counter value and never at a later one. -/
theorem LeakByte_never_decides_fails_at_ceiling_succ
    (priv markAt : Nat → Nat) (sm oracleAddr : Nat)
    (decider : Nat → Bool × Char) (g : Globals)
    (hnd : ∀ n, (decider n).1 = false) (hfv : g.false_value = false) :
    ∃ evs, LeakByte priv markAt sm oracleAddr decider g =
      .convergenceFailure (decider (convergenceCeiling + 1)).2
        (convergenceCeiling + 1) evs := by
  have h := LeakByteLoop_conv priv markAt sm decider hnd 100001 0
    { g with oracle_ptr := oracleAddr } hfv (by omega)
  exact h

/-- Witness for C1 at a concrete never-deciding collaborator. -/
theorem LeakByte_never_decides_fails_at_ceiling_succ_witness :
    (∀ n : Nat, ((fun _ : Nat => ((false : Bool), '?')) n).1 = false) ∧
    ∃ evs, LeakByte (fun _ => 0) (fun _ => 0) 0 0 (fun _ => (false, '?'))
        initGlobals =
      .convergenceFailure '?' (convergenceCeiling + 1) evs :=
  ⟨fun _ => rfl,
    LeakByte_never_decides_fails_at_ceiling_succ (fun _ => 0) (fun _ => 0) 0 0
      (fun _ => (false, '?')) initGlobals (fun _ => rfl) rfl⟩

/-- C3: for every depth and every starting state whose tracker is non-empty
(the sentinel is already pushed), `ReturnsTrue` returns `true` and leaves
the tracker with exactly as many marks as before the call. -/
theorem ReturnsTrue_true_and_net_zero_marks
    (priv markAt : Nat → Nat) (c : Nat) (g : Globals)
    (hne : g.stack_mark_pointers ≠ []) (hfv : g.false_value = false) :
    ∃ g1 evs, ReturnsTrue priv markAt c g = .ret true g1 evs ∧
      g1.stack_mark_pointers.length = g.stack_mark_pointers.length := by
  obtain ⟨p, rest, hsmp⟩ : ∃ p rest, g.stack_mark_pointers = p :: rest := by
    cases h : g.stack_mark_pointers with
    | nil => exact absurd h hne
    | cons a l => exact ⟨a, l, rfl⟩
  exact ⟨g, _, ReturnsTrue_run_of priv markAt c g p rest hfv hsmp, rfl⟩

/-- Witness for C3 at depth 2 and a one-mark tracker. -/
theorem ReturnsTrue_true_and_net_zero_marks_witness :
    ((⟨0, false, 0, [7]⟩ : Globals).stack_mark_pointers ≠ []) ∧
    ∃ g1 evs, ReturnsTrue (fun _ => 0) (fun _ => 0) 2 ⟨0, false, 0, [7]⟩ =
        .ret true g1 evs ∧
      g1.stack_mark_pointers.length =
        (⟨0, false, 0, [7]⟩ : Globals).stack_mark_pointers.length :=
  ⟨by simp,
    ReturnsTrue_true_and_net_zero_marks (fun _ => 0) (fun _ => 0) 2
      ⟨0, false, 0, [7]⟩ (by simp) rfl⟩

/-- C5: for every depth, `ReturnsFalse` terminates and returns `false`
(the program's `false_value` global is `false` and never written). -/
theorem ReturnsFalse_always_false (priv : Nat → Nat) (c : Nat) (g : Globals)
    (hfv : g.false_value = false) :
    ∃ g1 evs, ReturnsFalse priv c g = .ret false g1 evs := by
  obtain ⟨co, fv, op, smp⟩ := g
  cases hfv
  exact ⟨_, _, ReturnsFalse_run priv c co op smp⟩

/-- Witness for C5 at depth 3. -/
theorem ReturnsFalse_always_false_witness :
    ((⟨5, false, 0, []⟩ : Globals).false_value = false) ∧
    ∃ g1 evs, ReturnsFalse (fun _ => 0) 3 ⟨5, false, 0, []⟩ = .ret false g1 evs :=
  ⟨rfl, ReturnsFalse_always_false (fun _ => 0) 3 ⟨5, false, 0, []⟩ rfl⟩

/-- C6: the dead branch of `ReturnsFalse` is architecturally unreachable:
no execution exits through it, performs its forced oracle read, or prints
the dead-code message. -/
theorem ReturnsFalse_dead_branch_unreachable (priv : Nat → Nat) (c : Nat)
    (g : Globals) (hfv : g.false_value = false) :
    (∀ evs, ReturnsFalse priv c g ≠ .exited evs) ∧
    (∀ b g1 evs, ReturnsFalse priv c g = .ret b g1 evs →
      (∀ i, Event.forceRead i ∉ evs) ∧ Event.printDead ∉ evs) := by
  obtain ⟨co, fv, op, smp⟩ := g
  cases hfv
  constructor
  · intro evs h
    rw [ReturnsFalse_run] at h
    exact Res.noConfusion h
  · intro b g1 evs h
    rw [ReturnsFalse_run] at h
    injection h with h1 h2 h3
    subst h3
    exact ⟨fun i => List.not_mem_nil _, List.not_mem_nil _⟩

/-- Witness for C6 at depth 4. -/
theorem ReturnsFalse_dead_branch_unreachable_witness :
    ((⟨0, false, 0, []⟩ : Globals).false_value = false) ∧
    ((∀ evs, ReturnsFalse (fun _ => 65) 4 ⟨0, false, 0, []⟩ ≠ .exited evs) ∧
    (∀ b g1 evs, ReturnsFalse (fun _ => 65) 4 ⟨0, false, 0, []⟩ = .ret b g1 evs →
      (∀ i, Event.forceRead i ∉ evs) ∧ Event.printDead ∉ evs)) :=
  ⟨rfl, ReturnsFalse_dead_branch_unreachable (fun _ => 65) 4 ⟨0, false, 0, []⟩ rfl⟩

/-- C10: `ReturnsFalse` leaves all program state unchanged: it returns with
exactly the starting globals (`current_offset`, `false_value`,
`oracle_ptr` and the `stack_mark_pointers` tracker) and its trace performs
no tracker push or pop. -/
theorem ReturnsFalse_preserves_all_state (priv : Nat → Nat) (c : Nat)
    (g : Globals) (hfv : g.false_value = false) :
    ∃ evs, ReturnsFalse priv c g = .ret false g evs ∧
      (∀ m, Event.pushMark m ∉ evs) ∧ Event.popMark ∉ evs := by
  obtain ⟨co, fv, op, smp⟩ := g
  cases hfv
  exact ⟨[], ReturnsFalse_run priv c co op smp,
    fun m => List.not_mem_nil _, List.not_mem_nil _⟩

/-- Witness for C10 at depth 5. -/
theorem ReturnsFalse_preserves_all_state_witness :
    ((⟨9, false, 3, [4]⟩ : Globals).false_value = false) ∧
    ∃ evs, ReturnsFalse (fun _ => 1) 5 ⟨9, false, 3, [4]⟩ =
        .ret false ⟨9, false, 3, [4]⟩ evs ∧
      (∀ m, Event.pushMark m ∉ evs) ∧ Event.popMark ∉ evs :=
  ⟨rfl, ReturnsFalse_preserves_all_state (fun _ => 1) 5 ⟨9, false, 3, [4]⟩ rfl⟩

/-- C9: if the collaborator decides on the first trial, `LeakByte` returns
that byte after exactly one trial: the deciding `run` counter is 0 and the
trace holds exactly one oracle flush, one decision query, and the pushes
of exactly one top-level `ReturnsTrue kRecursionDepth` run (its
`kRecursionDepth + 1` frames plus the sentinel). -/
theorem LeakByte_first_trial_returns (priv markAt : Nat → Nat)
    (sm oracleAddr : Nat) (decider : Nat → Bool × Char) (g : Globals)
    (hfv : g.false_value = false) (hd : (decider 0).1 = true) :
    ∃ g1 evs, LeakByte priv markAt sm oracleAddr decider g =
        .ret (decider 0).2 0 g1 evs ∧
      evs.countP (fun e => isFlushOracleEvent e) = 1 ∧
      evs.countP (fun e => isQueryEvent e) = 1 ∧
      evs.countP (fun e => isPushEvent e) = kRecursionDepth + 2 := by
  have h := LeakByteLoop_first_trial priv markAt sm decider
    { g with oracle_ptr := oracleAddr } hfv hd
  refine ⟨_, _, h, ?_, ?_, ?_⟩
  · rw [List.countP_cons, List.countP_cons, List.countP_append,
      trueEvents_countP_flushOracle]
    rfl
  · rw [List.countP_cons, List.countP_cons, List.countP_append,
      trueEvents_countP_query]
    rfl
  · rw [List.countP_cons, List.countP_cons, List.countP_append,
      trueEvents_countP_push]
    rfl

/-- Witness for C9 at a concrete first-trial-deciding collaborator. -/
theorem LeakByte_first_trial_returns_witness :
    ((initGlobals.false_value = false) ∧
      (((fun _ : Nat => ((true : Bool), 'A')) 0).1 = true)) ∧
    ∃ g1 evs, LeakByte (fun _ => 0) (fun _ => 0) 0 0 (fun _ => (true, 'A'))
        initGlobals = .ret 'A' 0 g1 evs ∧
      evs.countP (fun e => isFlushOracleEvent e) = 1 ∧
      evs.countP (fun e => isQueryEvent e) = 1 ∧
      evs.countP (fun e => isPushEvent e) = kRecursionDepth + 2 :=
  ⟨⟨rfl, rfl⟩,
    LeakByte_first_trial_returns (fun _ => 0) (fun _ => 0) 0 0
      (fun _ => (true, 'A')) initGlobals rfl rfl⟩

theorem LeakLoopMain_conv_head (priv markAt : Nat → Nat) (sm oracleAddr : Nat)
    (collab : Nat → Nat → Bool × Char) (i : Nat) (offs : List Nat)
    (g : Globals) (out : List Char) (hfv : g.false_value = false)
    (hnd : ∀ r, (collab i r).1 = false) :
    LeakLoopMain priv markAt sm oracleAddr collab (i :: offs) g out =
      .convFail out
        ("Does not converge " ++
          String.mk [(collab i (convergenceCeiling + 1)).2]) i := by
  obtain ⟨evs, h⟩ := LeakByteLoop_conv priv markAt sm (collab i) hnd 100001 0
    ⟨i, g.false_value, oracleAddr, g.stack_mark_pointers⟩ hfv (by omega)
  rw [LeakLoopMain]
  rw [show (LeakByte priv markAt sm oracleAddr (collab i)
        { g with current_offset := i }) =
      LeakByteLoop sm (ReturnsTrue priv markAt kRecursionDepth) (collab i)
        ⟨i, g.false_value, oracleAddr, g.stack_mark_pointers⟩ 0
    from rfl]
  rw [h]
  rfl

theorem LeakLoopMain_decided_head (priv markAt : Nat → Nat)
    (sm oracleAddr : Nat) (collab : Nat → Nat → Bool × Char) (i : Nat)
    (offs : List Nat) (g : Globals) (out : List Char)
    (hfv : g.false_value = false) (hd : (collab i 0).1 = true) :
    LeakLoopMain priv markAt sm oracleAddr collab (i :: offs) g out =
      LeakLoopMain priv markAt sm oracleAddr collab offs
        { g with current_offset := i, oracle_ptr := oracleAddr }
        (out ++ [(collab i 0).2]) := by
  have h := LeakByteLoop_first_trial priv markAt sm (collab i)
    ⟨i, g.false_value, oracleAddr, g.stack_mark_pointers⟩ hfv hd
  rw [LeakLoopMain]
  rw [show (LeakByte priv markAt sm oracleAddr (collab i)
        { g with current_offset := i }) =
      LeakByteLoop sm (ReturnsTrue priv markAt kRecursionDepth) (collab i)
        ⟨i, g.false_value, oracleAddr, g.stack_mark_pointers⟩ 0
    from rfl]
  rw [h]

/-- C2 counterexample: two complete runs whose convergence failures happen
at different offsets (0 in the first run, 1 in the second) emit the very
same stderr report `"Does not converge ?"`; the report names the last
undecided guess but carries no offset, so the failure does not report the
offset at which convergence failed. -/
theorem convergence_report_carries_no_offset :
    MainRun (fun _ => 0) (fun _ => 0) 0 0 (fun _ _ => (false, '?')) 2
        ⟨0, false, 0, []⟩ =
      .convFail [] "Does not converge ?" 0 ∧
    MainRun (fun _ => 0) (fun _ => 0) 0 0
        (fun o _ => if o = 0 then (true, 'A') else (false, '?')) 2
        ⟨0, false, 0, []⟩ =
      .convFail ['A'] "Does not converge ?" 1 := by
  constructor
  · rw [MainRun, show List.range 2 = [0, 1] from rfl]
    rw [LeakLoopMain_conv_head (fun _ => 0) (fun _ => 0) 0 0
      (fun _ _ => (false, '?')) 0 [1] ⟨0, false, 0, []⟩ [] rfl (fun _ => rfl)]
    rfl
  · rw [MainRun, show List.range 2 = [0, 1] from rfl]
    rw [LeakLoopMain_decided_head (fun _ => 0) (fun _ => 0) 0 0
      (fun o _ => if o = 0 then (true, 'A') else (false, '?')) 0 [1]
      ⟨0, false, 0, []⟩ [] rfl rfl]
    rw [LeakLoopMain_conv_head (fun _ => 0) (fun _ => 0) 0 0
      (fun o _ => if o = 0 then (true, 'A') else (false, '?')) 1 []
      _ _ rfl (fun _ => rfl)]
    rfl

theorem LeakLoopMain_skip_decided (priv markAt : Nat → Nat)
    (sm oracleAddr : Nat) (collab : Nat → Nat → Bool × Char) :
    ∀ (js offs2 : List Nat) (g : Globals) (out : List Char),
      g.false_value = false → (∀ j ∈ js, (collab j 0).1 = true) →
      ∃ g1, g1.false_value = false ∧
        LeakLoopMain priv markAt sm oracleAddr collab (js ++ offs2) g out =
          LeakLoopMain priv markAt sm oracleAddr collab offs2 g1
            (out ++ js.map (fun j => (collab j 0).2)) := by
  intro js
  induction js with
  | nil =>
    intro offs2 g out hfv _
    exact ⟨g, hfv, by simp⟩
  | cons j js ih =>
    intro offs2 g out hfv hdec
    rw [List.cons_append, LeakLoopMain_decided_head priv markAt sm oracleAddr
      collab j (js ++ offs2) g out hfv (hdec j (List.mem_cons_self j js))]
    obtain ⟨g1, hg1, heq⟩ := ih offs2
      { g with current_offset := j, oracle_ptr := oracleAddr }
      (out ++ [(collab j 0).2]) hfv
      (fun a ha => hdec a (List.mem_cons_of_mem j ha))
    refine ⟨g1, hg1, ?_⟩
    rw [heq]
    congr 1
    simp

/-- C2 (amended): when the trial counter passes the ceiling at some offset
(after the earlier offsets decided), the fatal convergence failure reports
the last undecided guess — the stderr line is `"Does not converge "` plus
that guess, with no offset in it — and aborts the whole run, so no later
offset produces any output. -/
theorem convergence_failure_reports_guess_and_aborts
    (priv markAt : Nat → Nat) (sm oracleAddr : Nat)
    (collab : Nat → Nat → Bool × Char) (len i : Nat) (g : Globals)
    (hfv : g.false_value = false)
    (hdec : ∀ j, j < i → (collab j 0).1 = true)
    (hnd : ∀ r, (collab i r).1 = false) (hi : i < len) :
    MainRun priv markAt sm oracleAddr collab len g =
      .convFail ((List.range i).map (fun j => (collab j 0).2))
        ("Does not converge " ++
          String.mk [(collab i (convergenceCeiling + 1)).2]) i := by
  obtain ⟨k, rfl⟩ : ∃ k, len = i + (k + 1) := ⟨len - i - 1, by omega⟩
  rw [MainRun, List.range_add, List.range_succ_eq_map]
  obtain ⟨g1, hg1, heq⟩ := LeakLoopMain_skip_decided priv markAt sm oracleAddr
    collab (List.range i) ((0 :: (List.range k).map Nat.succ).map (i + ·)) g
    [] hfv (fun j hj => hdec j (List.mem_range.mp hj))
  rw [heq, List.map_cons, Nat.add_zero,
    LeakLoopMain_conv_head priv markAt sm oracleAddr collab i _ g1 _ hg1 hnd]
  simp

/-- Witness for the amended C2: offset 0 decides with byte A, offset 1
never decides, secret length 3. -/
theorem convergence_failure_reports_guess_and_aborts_witness :
    ((initGlobals.false_value = false) ∧
      (∀ j : Nat, j < 1 →
        (((fun o _ : Nat => if o = 0 then ((true : Bool), 'A')
            else (false, 'x')) j 0).1 = true)) ∧
      (∀ r : Nat,
        (((fun o _ : Nat => if o = 0 then ((true : Bool), 'A')
            else (false, 'x')) 1 r).1 = false)) ∧
      (1 < 3)) ∧
    MainRun (fun _ => 0) (fun _ => 0) 0 0
        (fun o _ => if o = 0 then (true, 'A') else (false, 'x')) 3
        initGlobals =
      .convFail ['A'] ("Does not converge " ++ String.mk ['x']) 1 := by
  refine ⟨⟨rfl, ?_, fun r => rfl, by omega⟩, ?_⟩
  · intro j hj
    have hj0 : j = 0 := by omega
    subst hj0
    rfl
  · exact convergence_failure_reports_guess_and_aborts (fun _ => 0)
      (fun _ => 0) 0 0
      (fun o _ => if o = 0 then (true, 'A') else (false, 'x')) 3 1
      initGlobals rfl
      (fun j hj => by
        have hj0 : j = 0 := by omega
        subst hj0
        rfl)
      (fun r => rfl) (by omega)

theorem ReturnsTrueMarkTrace_spec (markAt : Nat → Nat) :
    ∀ (c : Nat) (t : List Nat) (live : Nat), t.length = live → 1 ≤ live →
      ∃ snaps, ReturnsTrueMarkTrace markAt c t live = some (snaps, t) ∧
        ∀ p ∈ snaps, (p.1 : List Nat).length = p.2 ∧ 1 ≤ p.2 := by
  intro c
  induction c with
  | zero =>
    intro t live hlen hlive
    obtain ⟨a, t1, rfl⟩ : ∃ a t1, t = a :: t1 := by
      cases t with
      | nil => simp at hlen; omega
      | cons a t1 => exact ⟨a, t1, rfl⟩
    refine ⟨[(markAt 0 :: a :: t1, live + 1), (a :: t1, live)], rfl, ?_⟩
    intro p hp
    simp only [List.mem_cons, List.not_mem_nil, or_false] at hp
    rcases hp with rfl | rfl
    · refine ⟨?_, by omega⟩
      simp only [List.length_cons] at hlen ⊢
      omega
    · exact ⟨hlen, hlive⟩
  | succ c ih =>
    intro t live hlen hlive
    obtain ⟨a, t1, rfl⟩ : ∃ a t1, t = a :: t1 := by
      cases t with
      | nil => simp at hlen; omega
      | cons a t1 => exact ⟨a, t1, rfl⟩
    obtain ⟨snaps1, h1, hm1⟩ := ih (markAt (c + 1) :: a :: t1) (live + 1)
      (by simp only [List.length_cons] at hlen ⊢; omega) (by omega)
    refine ⟨(markAt (c + 1) :: a :: t1, live + 1) ::
      (snaps1 ++ [(a :: t1, live)]), ?_, ?_⟩
    · rw [ReturnsTrueMarkTrace, h1]
      rfl
    · intro p hp
      rcases List.mem_cons.mp hp with rfl | hp1
      · refine ⟨?_, by omega⟩
        simp only [List.length_cons] at hlen ⊢
        omega
      rcases List.mem_append.mp hp1 with hp2 | hp3
      · exact hm1 p hp2
      · have hp4 : p = (a :: t1, live) := by simpa using hp3
        subst hp4
        exact ⟨hlen, hlive⟩

/-- C4: during a whole pollution run of `LeakByte` (sentinel push,
`ReturnsTrue kRecursionDepth`, sentinel pop) the trace of tracker states
is defined (`some`): no `pop_back` or `back` ever hits an empty vector;
at every snapshot the tracker's length equals the number of currently
pushed marks (sentinel plus one mark per live `ReturnsTrue` frame); the
tracker is non-empty at every point except the final one, which lies
outside the run and is the empty tracker again. -/
theorem pollution_run_tracker_invariant (markAt : Nat → Nat) (sm : Nat) :
    ∃ snaps, pollutionRunMarkTrace markAt sm = some snaps ∧
      (∀ p ∈ snaps, (p.1 : List Nat).length = p.2) ∧
      (∀ p ∈ snaps.dropLast, p.1 ≠ []) ∧
      snaps.getLast? = some ([], 0) := by
  obtain ⟨snaps1, h1, hm1⟩ :=
    ReturnsTrueMarkTrace_spec markAt kRecursionDepth [sm] 1 rfl (by omega)
  refine ⟨([sm], 1) :: (snaps1 ++ [([], 0)]), ?_, ?_, ?_, ?_⟩
  · rw [pollutionRunMarkTrace, h1]
  · intro p hp
    rcases List.mem_cons.mp hp with rfl | hp1
    · rfl
    rcases List.mem_append.mp hp1 with hp2 | hp3
    · exact (hm1 p hp2).1
    · have hp4 : p = (([] : List Nat), 0) := by simpa using hp3
      subst hp4
      rfl
  · intro p hp
    rw [show (([sm], 1) :: (snaps1 ++ [(([] : List Nat), 0)])) =
        ((([sm], 1) :: snaps1) ++ [(([] : List Nat), 0)]) from rfl,
      List.dropLast_concat] at hp
    rcases List.mem_cons.mp hp with rfl | hp1
    · simp
    · obtain ⟨hl, hge⟩ := hm1 p hp1
      intro hnil
      rw [hnil] at hl
      simp only [List.length_nil] at hl
      omega
  · rw [show (([sm], 1) :: (snaps1 ++ [(([] : List Nat), 0)])) =
        ((([sm], 1) :: snaps1) ++ [(([] : List Nat), 0)]) from rfl,
      List.getLast?_concat]

theorem evictLoopOffsets_mem (diff step : Nat) (hstep : 0 < step) :
    ∀ (fuel i : Nat), diff - i ≤ fuel →
      ∀ a, a ∈ evictLoopOffsets diff step i fuel ↔
        ∃ k, a = i + k * step ∧ a < diff := by
  intro fuel
  induction fuel with
  | zero =>
    intro i hle a
    rw [show evictLoopOffsets diff step i 0 = [] from rfl]
    constructor
    · intro h
      exact absurd h (List.not_mem_nil a)
    · rintro ⟨k, rfl, hlt⟩
      have hk : i ≤ i + k * step := Nat.le_add_right _ _
      omega
  | succ fuel ih =>
    intro i hle a
    rw [show evictLoopOffsets diff step i (fuel + 1) =
        (if i < diff then i :: evictLoopOffsets diff step (i + step) fuel
         else []) from rfl]
    by_cases hid : i < diff
    · rw [if_pos hid, List.mem_cons, ih (i + step) (by omega)]
      constructor
      · rintro (rfl | ⟨k, rfl, hlt⟩)
        · exact ⟨0, by simp, hid⟩
        · exact ⟨k + 1, by ring, hlt⟩
      · rintro ⟨k, rfl, hlt⟩
        cases k with
        | zero => left; simp
        | succ k => right; exact ⟨k, by ring, hlt⟩
    · rw [if_neg hid]
      constructor
      · intro h
        exact absurd h (List.not_mem_nil a)
      · rintro ⟨k, rfl, hlt⟩
        have hk : i ≤ i + k * step := Nat.le_add_right _ _
        omega

theorem evictLoopOffsets_lb (diff step : Nat) :
    ∀ (fuel i a : Nat), a ∈ evictLoopOffsets diff step i fuel → i ≤ a := by
  intro fuel
  induction fuel with
  | zero =>
    intro i a h
    rw [show evictLoopOffsets diff step i 0 = [] from rfl] at h
    exact absurd h (List.not_mem_nil a)
  | succ fuel ih =>
    intro i a h
    rw [show evictLoopOffsets diff step i (fuel + 1) =
        (if i < diff then i :: evictLoopOffsets diff step (i + step) fuel
         else []) from rfl] at h
    by_cases hid : i < diff
    · rw [if_pos hid] at h
      rcases List.mem_cons.mp h with rfl | h1
      · exact Nat.le_refl _
      · have := ih (i + step) a h1
        omega
    · rw [if_neg hid] at h
      exact absurd h (List.not_mem_nil a)

theorem evictLoopOffsets_pairwise (diff step : Nat) (hstep : 0 < step) :
    ∀ (fuel i : Nat), List.Pairwise (· < ·) (evictLoopOffsets diff step i fuel) := by
  intro fuel
  induction fuel with
  | zero =>
    intro i
    rw [show evictLoopOffsets diff step i 0 = [] from rfl]
    exact List.Pairwise.nil
  | succ fuel ih =>
    intro i
    rw [show evictLoopOffsets diff step i (fuel + 1) =
        (if i < diff then i :: evictLoopOffsets diff step (i + step) fuel
         else []) from rfl]
    by_cases hid : i < diff
    · rw [if_pos hid]
      refine List.pairwise_cons.mpr ⟨?_, ih (i + step)⟩
      intro a ha
      have := evictLoopOffsets_lb diff step fuel (i + step) a ha
      omega
    · rw [if_neg hid]
      exact List.Pairwise.nil

/-- C7: for every own mark, parent mark and positive line size, the unwind
eviction flushes exactly the addresses `ownMark + i * step` for the `i ≥ 0`
with `ownMark + i * step` strictly below `parentMark`, in strictly
increasing order, and then additionally flushes `parentMark` itself (which
is therefore flushed even when the distance is not a multiple of the line
size). -/
theorem evict_flushes_exactly (ownMark parentMark step : Nat)
    (hstep : 0 < step) :
    (∀ a, a ∈ (evict ownMark parentMark step).dropLast ↔
      ∃ i, a = ownMark + i * step ∧ a < parentMark) ∧
    List.Pairwise (· < ·) (evict ownMark parentMark step) ∧
    (evict ownMark parentMark step).getLast? = some parentMark := by
  have hmem0 := evictLoopOffsets_mem (parentMark - ownMark) step hstep
    (parentMark - ownMark) 0 (by omega)
  have hmem : ∀ b, b ∈ evictLoopOffsets (parentMark - ownMark) step 0
      (parentMark - ownMark) ↔
      ∃ k, b = k * step ∧ b < parentMark - ownMark := by
    intro b
    rw [hmem0 b]
    constructor
    · rintro ⟨k, rfl, hlt⟩
      exact ⟨k, by omega, hlt⟩
    · rintro ⟨k, rfl, hlt⟩
      exact ⟨k, by omega, hlt⟩
  have hbound : ∀ b, b < parentMark - ownMark → ownMark + b < parentMark := by
    intro b hb
    have h3 : ownMark + b < ownMark + (parentMark - ownMark) :=
      Nat.add_lt_add_left hb _
    have h4 : ownMark + (parentMark - ownMark) ≤ parentMark := by omega
    exact Nat.lt_of_lt_of_le h3 h4
  refine ⟨?_, ?_, ?_⟩
  · intro a
    rw [evict, List.dropLast_concat, List.mem_map]
    constructor
    · rintro ⟨b, hb, rfl⟩
      obtain ⟨k, rfl, hlt⟩ := (hmem b).mp hb
      exact ⟨k, rfl, hbound _ hlt⟩
    · rintro ⟨i, rfl, hlt⟩
      have hlt1 : i * step + ownMark < parentMark := by
        rw [Nat.add_comm]
        exact hlt
      exact ⟨i * step,
        (hmem _).mpr ⟨i, rfl, Nat.lt_sub_of_add_lt hlt1⟩, rfl⟩
  · rw [evict, List.pairwise_append]
    refine ⟨?_, by simp, ?_⟩
    · rw [List.pairwise_map]
      exact (evictLoopOffsets_pairwise (parentMark - ownMark) step hstep
        (parentMark - ownMark) 0).imp (fun h => Nat.add_lt_add_left h _)
    · intro a ha b hb
      have hb1 : b = parentMark := by simpa using hb
      subst hb1
      obtain ⟨c1, hc1, rfl⟩ := List.mem_map.mp ha
      obtain ⟨k, rfl, hlt⟩ := (hmem c1).mp hc1
      exact hbound _ hlt
  · rw [evict, List.getLast?_concat]

/-- Witness for C7 at own mark 10, parent mark 30, line size 8. -/
theorem evict_flushes_exactly_witness :
    (0 < 8) ∧
    ((∀ a, a ∈ (evict 10 30 8).dropLast ↔ ∃ i, a = 10 + i * 8 ∧ a < 30) ∧
     List.Pairwise (· < ·) (evict 10 30 8) ∧
     (evict 10 30 8).getLast? = some 30) :=
  ⟨by omega, evict_flushes_exactly 10 30 8 (by omega)⟩

theorem flushAll_mem (x : Nat) :
    ∀ (addrs : List Nat) (cache : Finset Nat),
      x ∈ flushAll cache addrs ↔ x ∈ cache ∧ x ∉ addrs := by
  intro addrs
  induction addrs with
  | nil =>
    intro cache
    simp [flushAll]
  | cons a addrs ih =>
    intro cache
    rw [show flushAll cache (a :: addrs) = flushAll (cache.erase a) addrs
      from rfl, ih]
    simp only [Finset.mem_erase, List.mem_cons]
    tauto

/-- C8: the frame eviction is idempotent: performed twice on the same
range over any cache state (flushing modeled as removing a line from the
cached set) it yields the same cache state as performed once. -/
theorem evict_idempotent (cache : Finset Nat) (ownMark parentMark step : Nat) :
    evictCache (evictCache cache ownMark parentMark step)
        ownMark parentMark step =
      evictCache cache ownMark parentMark step := by
  ext x
  simp only [evictCache, flushAll_mem]
  tauto

end Ret2Spec
